import Mathlib

/-!
# Dada Bucks engine — shallow embedding

A shallow embedding of the state-and-rules engine of the Dada Bucks
household-currency app (`src/store/dadaStore.ts` together with the type
definitions and constants of `src/types`).

Modelling conventions:
* JavaScript `number` currency amounts are embedded as `Int`; the floating
  point interest computation (`savings * 0.01`) is embedded with exact
  rational arithmetic (`ℚ`).
* Wall-clock time is injected as a parameter `now`, measured in minutes since
  an epoch; a calendar-date string `YYYY-MM-DD` is modelled as the day index
  `now / 1440`.
* Random id generation (`generateId`) is injected deterministically through a
  `nextId` counter carried in the state; nothing in the engine reads an id
  other than by equality.
* The `children.find(...) || children[0]` acting-child resolution is modelled
  with `Option`; the empty-children case (unreachable in the app, since
  `deleteChild` refuses to remove the last child) is mapped to a failing
  no-op result.
* Presentation-only fields (names, icons, descriptions, messages, view
  flags, the spend-item catalog) are outside the embedding's scope; the
  distinct return branches of each operation are kept as result enums.
-/

namespace DadaBucks

/-! ## Constants (from `src/types`) -/

def VAULT_MAX : Int := 1000

def DAILY_SPEND_LIMIT : Int := 40

def MAX_STRIKES : Nat := 3

def RESET_HOUR : Nat := 22

/-! ## Data model (from `src/types`) -/

inductive TransactionType where
  | earn
  | spend
  | refund
  | strikePenalty
  | interest
  | savingsDeposit
  | savingsWithdrawal
deriving DecidableEq, Repr

structure ChildProfile where
  id : Nat
  balance : Int
  savings : Int
  savingsInterestAccrued : Int
  totalEarned : Int
  totalSpent : Int
  pendingEarnings : Int
  lastInterestDate : Nat
deriving DecidableEq, Repr

structure Task where
  id : Nat
  payout : Int
  dailyMax : Int
  completions : Int
  isActive : Bool
deriving DecidableEq, Repr

structure Strike where
  id : Nat
  childId : Nat
  reason : String
  timestamp : Nat
  day : Nat
deriving DecidableEq, Repr

structure Transaction where
  id : Nat
  childId : Nat
  type : TransactionType
  amount : Int
  timestamp : Nat
deriving DecidableEq, Repr

inductive RequestStatus where
  | pending
  | approved
  | denied
deriving DecidableEq, Repr

structure RequestItem where
  cost : Int
  quantity : Int
deriving DecidableEq, Repr

structure SpendRequest where
  id : Nat
  childId : Nat
  items : List RequestItem
  totalCost : Int
  status : RequestStatus
  requestedAt : Nat
  respondedAt : Option Nat
deriving DecidableEq, Repr

structure ApprovedRequestNotification where
  requestId : Nat
  items : List RequestItem
  totalCost : Int
  approvedAt : Nat
  shownToChild : Bool
deriving DecidableEq, Repr

structure Vault where
  balance : Int
  maxBalance : Int
  dailyAllowance : Int
deriving DecidableEq, Repr

structure DadaState where
  children : List ChildProfile
  currentChildId : Nat
  vault : Vault
  tasks : List Task
  transactions : List Transaction
  pendingRequests : List SpendRequest
  requestHistory : List SpendRequest
  approvedNotifications : List ApprovedRequestNotification
  strikes : List Strike
  lastResetDate : Nat
  nextId : Nat
deriving DecidableEq, Repr

/-! ## Time helpers (from `dadaStore.ts` helper functions) -/

def minutesPerDay : Nat := 1440

/-- `getTodayDate()`: the calendar-date key of an instant, as a day index. -/
def getTodayDate (now : Nat) : Nat := now / minutesPerDay

/-- `shouldResetToday`: true when `now` has passed today's `RESET_HOUR`
cutover and the last reset predates it, or when the last reset predates
yesterday's cutover (a missed day). -/
def shouldResetToday (lastResetDate : Nat) (now : Nat) : Bool :=
  let todayReset := getTodayDate now * minutesPerDay + RESET_HOUR * 60
  let lastReset := lastResetDate * minutesPerDay + RESET_HOUR * 60
  (decide (todayReset ≤ now) && decide (lastReset < todayReset)) ||
    decide (lastReset < todayReset - minutesPerDay)

/-- `children.find(c => c.id === currentChildId) || children[0]`. -/
def actingChild (s : DadaState) : Option ChildProfile :=
  match s.children.find? (fun c => c.id == s.currentChildId) with
  | some c => some c
  | none => s.children.head?

def findTask (s : DadaState) (taskId : Nat) : Option Task :=
  s.tasks.find? (fun t => t.id == taskId)

/-- Constructor helper for `Strike` records (used in statements). -/
def mkStrike (strikeId childId : Nat) (reason : String) (timestamp day : Nat) :
    Strike :=
  { id := strikeId, childId := childId, reason := reason,
    timestamp := timestamp, day := day }

/-- `strikes.filter(s => s.day === today && s.childId === childId).length`. -/
def todayStrikeCount (s : DadaState) (childId : Nat) (today : Nat) : Nat :=
  (s.strikes.filter (fun k => k.day == today && k.childId == childId)).length

/-- `children.map(c => c.id === childId ? { ...c, ... } : c)`. -/
def updateChildren (children : List ChildProfile) (childId : Nat)
    (f : ChildProfile → ChildProfile) : List ChildProfile :=
  children.map (fun c => if c.id == childId then f c else c)

/-- `tasks.map(t => t.id === taskId ? { ...t, ... } : t)`. -/
def updateTasks (tasks : List Task) (taskId : Nat) (f : Task → Task) :
    List Task :=
  tasks.map (fun t => if t.id == taskId then f t else t)

def findChild (s : DadaState) (childId : Nat) : Option ChildProfile :=
  s.children.find? (fun c => c.id == childId)

/-! ## Task completion / earn -/

inductive CompleteTaskResult where
  | notFound
  | inactive
  | noChild
  | strikesExhausted
  | dailyCapReached
  | vaultInsufficient
  | completed (earned : Int)
deriving DecidableEq, Repr

/-- `completeTask(taskId)` — earnings go to `pendingEarnings`, the Vault is
debited, no Transaction is logged. -/
def completeTask (taskId : Nat) (now : Nat) (s : DadaState) :
    DadaState × CompleteTaskResult :=
  match findTask s taskId with
  | none => (s, .notFound)
  | some task =>
    if task.isActive = false then (s, .inactive)
    else
      match actingChild s with
      | none => (s, .noChild)
      | some child =>
        if MAX_STRIKES ≤ todayStrikeCount s child.id (getTodayDate now) then
          (s, .strikesExhausted)
        else if task.dailyMax ≤ task.completions then (s, .dailyCapReached)
        else if s.vault.balance < task.payout then (s, .vaultInsufficient)
        else
          ({ s with
              tasks := updateTasks s.tasks taskId (fun t =>
                { t with completions := t.completions + 1 }),
              children := updateChildren s.children child.id (fun c =>
                { c with pendingEarnings := c.pendingEarnings + task.payout }),
              vault := { s.vault with balance := s.vault.balance - task.payout } },
           .completed task.payout)

/-- `undoTaskCompletion(taskId)` — reverses one completion; `pendingEarnings`
is floored at 0 and the Vault credit is clamped at `VAULT_MAX`. -/
def undoTaskCompletion (taskId : Nat) (s : DadaState) : DadaState × Bool :=
  match findTask s taskId with
  | none => (s, false)
  | some task =>
    if task.completions ≤ 0 then (s, false)
    else
      match actingChild s with
      | none => (s, false)
      | some child =>
        ({ s with
            tasks := updateTasks s.tasks taskId (fun t =>
              { t with completions := t.completions - 1 }),
            children := updateChildren s.children child.id (fun c =>
              { c with pendingEarnings := max 0 (c.pendingEarnings - task.payout) }),
            vault := { s.vault with
              balance := min VAULT_MAX (s.vault.balance + task.payout) } },
         true)

/-! ## Strike system -/

inductive AddStrikeResult where
  | noChild
  | capReached
  | struck (newCount : Nat)
  | forfeitTriggered (forfeited : Int)
deriving DecidableEq, Repr

/-- `addStrike(reason)` — appends a strike; the strike that reaches
`MAX_STRIKES` forfeits all pending earnings back to the Vault (clamped) and
logs a `strike_penalty` Transaction when the forfeited amount is positive. -/
def addStrike (reason : String) (now : Nat) (s : DadaState) :
    DadaState × AddStrikeResult :=
  match actingChild s with
  | none => (s, .noChild)
  | some child =>
    let today := getTodayDate now
    let todayStrikes := todayStrikeCount s child.id today
    if MAX_STRIKES ≤ todayStrikes then (s, .capReached)
    else
      let newStrike : Strike :=
        { id := s.nextId, childId := child.id, reason := reason,
          timestamp := now, day := today }
      let newStrikeCount := todayStrikes + 1
      if MAX_STRIKES ≤ newStrikeCount then
        let forfeited := child.pendingEarnings
        let penaltyTransaction : Transaction :=
          { id := s.nextId + 1, childId := child.id, type := .strikePenalty,
            amount := -forfeited, timestamp := now }
        ({ s with
            strikes := s.strikes ++ [newStrike],
            children := updateChildren s.children child.id (fun c =>
              { c with pendingEarnings := 0 }),
            vault := { s.vault with
              balance := min VAULT_MAX (s.vault.balance + forfeited) },
            transactions :=
              if 0 < forfeited then penaltyTransaction :: s.transactions
              else s.transactions,
            nextId := s.nextId + 2 },
         .forfeitTriggered forfeited)
      else
        ({ s with strikes := s.strikes ++ [newStrike], nextId := s.nextId + 1 },
         .struck newStrikeCount)

def removeStrike (strikeId : Nat) (s : DadaState) : DadaState :=
  { s with strikes := s.strikes.filter (fun k => k.id != strikeId) }

def resetStrikes (s : DadaState) : DadaState :=
  { s with strikes := [] }

/-! ## Interest calculator -/

structure InterestResult where
  wholeAmount : Int
  newAccrued : Int
deriving DecidableEq, Repr

/-- Rational addition, written with `Rat.divInt` so that it is
kernel-reducible (the library's `Rat.add` is `@[irreducible]`); provably
equal to `a + b`, see `qadd_eq`. -/
def qadd (a b : ℚ) : ℚ := Rat.divInt (a.num * b.den + b.num * a.den) (a.den * b.den)

/-- Kernel-reducible rational subtraction; provably `a - b`. -/
def qsub (a b : ℚ) : ℚ := Rat.divInt (a.num * b.den - b.num * a.den) (a.den * b.den)

/-- Kernel-reducible rational multiplication; provably `a * b`. -/
def qmul (a b : ℚ) : ℚ := Rat.divInt (a.num * b.num) (a.den * b.den)

/-- `calculateDailyInterest(savingsBalance)` — 1% daily; the JS float
computation `savingsBalance * 0.01` is embedded as exact rational
arithmetic.  `Math.floor` is `Rat.floor` and `Math.round x` is
`(x + 1/2).floor`; the arithmetic is spelled with the kernel-reducible
`Rat.divInt`/`qadd`/`qsub`/`qmul` forms, which provably coincide with the
ordinary rational operations (see `calculateDailyInterest_spec`). -/
def calculateDailyInterest (savingsBalance : Int) : InterestResult :=
  let dailyRate : ℚ := Rat.divInt 1 100
  let interestRaw : ℚ := qmul (Rat.divInt savingsBalance 1) dailyRate
  let wholeAmount : Int := interestRaw.floor
  let fractionalPart : ℚ := qsub interestRaw (Rat.divInt wholeAmount 1)
  { wholeAmount := wholeAmount,
    newAccrued := (qadd (qmul fractionalPart (Rat.divInt 100 1)) (Rat.divInt 1 2)).floor }

/-! ## Daily reset orchestrator -/

structure ResetResult where
  didReset : Bool
  earningsDeposited : Int
  interestEarned : Int
deriving DecidableEq, Repr

/-- Per-child reset pass: releases pending earnings into balance (logging an
`earn` Transaction when positive) and pays savings interest (logging an
`interest` Transaction when positive), returning the updated children, the
new transactions in order, the two aggregate totals and the advanced id
counter. -/
def processResetChildren (now today nid : Nat) :
    List ChildProfile →
      List ChildProfile × List Transaction × Int × Int × Nat
  | [] => ([], [], 0, 0, nid)
  | child :: rest =>
    let p := child.pendingEarnings
    let newBalance := if 0 < p then child.balance + p else child.balance
    let newTotalEarned := if 0 < p then child.totalEarned + p else child.totalEarned
    let earnTxns : List Transaction :=
      if 0 < p then
        [{ id := nid, childId := child.id, type := .earn, amount := p,
           timestamp := now }]
      else []
    let nid1 := if 0 < p then nid + 1 else nid
    let r := calculateDailyInterest child.savings
    let newSavings :=
      if 0 < r.wholeAmount then child.savings + r.wholeAmount else child.savings
    let intTxns : List Transaction :=
      if 0 < r.wholeAmount then
        [{ id := nid1, childId := child.id, type := .interest,
           amount := r.wholeAmount, timestamp := now }]
      else []
    let nid2 := if 0 < r.wholeAmount then nid1 + 1 else nid1
    let child2 : ChildProfile :=
      { child with
          balance := newBalance, savings := newSavings,
          savingsInterestAccrued := r.newAccrued, pendingEarnings := 0,
          totalEarned := newTotalEarned, lastInterestDate := today }
    let (restChildren, restTxns, dep, intr, nidF) :=
      processResetChildren now today nid2 rest
    (child2 :: restChildren, earnTxns ++ intTxns ++ restTxns,
     (if 0 < p then p else 0) + dep,
     (if 0 < r.wholeAmount then r.wholeAmount else 0) + intr, nidF)

/-- `checkAndPerformDailyReset()` — no-op unless `shouldResetToday`; then
releases earnings, pays interest, zeroes task completions, keeps only
today's strikes and advances the `lastResetDate` watermark. -/
def checkAndPerformDailyReset (now : Nat) (s : DadaState) :
    DadaState × ResetResult :=
  if shouldResetToday s.lastResetDate now = false then
    (s, { didReset := false, earningsDeposited := 0, interestEarned := 0 })
  else
    let today := getTodayDate now
    let pr := processResetChildren now today s.nextId s.children
    ({ s with
        children := pr.1,
        tasks := s.tasks.map (fun t => { t with completions := 0 }),
        strikes := s.strikes.filter (fun k => k.day == today),
        lastResetDate := today,
        transactions := pr.2.1 ++ s.transactions,
        nextId := pr.2.2.2.2 },
     { didReset := true, earningsDeposited := pr.2.2.1,
       interestEarned := pr.2.2.2.1 })

/-! ## Savings management -/

def depositToSavings (amount : Int) (now : Nat) (s : DadaState) :
    DadaState × Bool :=
  match actingChild s with
  | none => (s, false)
  | some child =>
    if amount ≤ 0 then (s, false)
    else if child.balance < amount then (s, false)
    else
      let txn : Transaction :=
        { id := s.nextId, childId := child.id, type := .savingsDeposit,
          amount := -amount, timestamp := now }
      ({ s with
          children := updateChildren s.children child.id (fun c =>
            { c with balance := c.balance - amount, savings := c.savings + amount }),
          transactions := txn :: s.transactions,
          nextId := s.nextId + 1 }, true)

def withdrawFromSavings (amount : Int) (now : Nat) (s : DadaState) :
    DadaState × Bool :=
  match actingChild s with
  | none => (s, false)
  | some child =>
    if amount ≤ 0 then (s, false)
    else if child.savings < amount then (s, false)
    else
      let txn : Transaction :=
        { id := s.nextId, childId := child.id, type := .savingsWithdrawal,
          amount := amount, timestamp := now }
      ({ s with
          children := updateChildren s.children child.id (fun c =>
            { c with balance := c.balance + amount, savings := c.savings - amount }),
          transactions := txn :: s.transactions,
          nextId := s.nextId + 1 }, true)

/-! ## Spend requests -/

inductive CreateRequestResult where
  | noChild
  | alreadyPending
  | insufficientBalance
  | created (requestId : Nat)
deriving DecidableEq, Repr

def createSpendRequest (items : List RequestItem) (now : Nat) (s : DadaState) :
    DadaState × CreateRequestResult :=
  match actingChild s with
  | none => (s, .noChild)
  | some child =>
    let existingPending := s.pendingRequests.filter (fun r =>
      r.childId == child.id && r.status == RequestStatus.pending)
    if 0 < existingPending.length then (s, .alreadyPending)
    else
      let totalCost := (items.map (fun i => i.cost * i.quantity)).sum
      if child.balance < totalCost then (s, .insufficientBalance)
      else
        let newRequest : SpendRequest :=
          { id := s.nextId, childId := child.id, items := items,
            totalCost := totalCost, status := .pending, requestedAt := now,
            respondedAt := none }
        ({ s with
            pendingRequests := s.pendingRequests ++ [newRequest],
            nextId := s.nextId + 1 },
         .created newRequest.id)

def cancelSpendRequest (requestId : Nat) (s : DadaState) : DadaState :=
  { s with pendingRequests := s.pendingRequests.filter (fun r => r.id != requestId) }

/-! ## Spend approval -/

def denyRequest (requestId : Nat) (now : Nat) (s : DadaState) : DadaState :=
  match s.pendingRequests.find? (fun r => r.id == requestId) with
  | none => s
  | some request =>
    let updatedRequest : SpendRequest :=
      { request with status := RequestStatus.denied, respondedAt := some now }
    { s with
        pendingRequests := s.pendingRequests.filter (fun r => r.id != requestId),
        requestHistory := updatedRequest :: s.requestHistory }

inductive ApproveResult where
  | notFound
  | childNotFound
  | insufficientDenied
  | approved
deriving DecidableEq, Repr

def approveRequest (requestId : Nat) (now : Nat) (s : DadaState) :
    DadaState × ApproveResult :=
  match s.pendingRequests.find? (fun r => r.id == requestId) with
  | none => (s, .notFound)
  | some request =>
    match s.children.find? (fun c => c.id == request.childId) with
    | none => (s, .childNotFound)
    | some child =>
      if child.balance < request.totalCost then
        (denyRequest requestId now s, .insufficientDenied)
      else
        let txn : Transaction :=
          { id := s.nextId, childId := child.id, type := .spend,
            amount := -request.totalCost, timestamp := now }
        let updatedRequest : SpendRequest :=
          { request with status := RequestStatus.approved, respondedAt := some now }
        let notification : ApprovedRequestNotification :=
          { requestId := request.id, items := request.items,
            totalCost := request.totalCost, approvedAt := now,
            shownToChild := false }
        ({ s with
            pendingRequests := s.pendingRequests.filter (fun r => r.id != requestId),
            requestHistory := updatedRequest :: s.requestHistory,
            approvedNotifications := notification :: s.approvedNotifications,
            children := updateChildren s.children child.id (fun c =>
              { c with
                  balance := c.balance - request.totalCost,
                  totalSpent := c.totalSpent + request.totalCost }),
            vault := { s.vault with
              balance := min VAULT_MAX (s.vault.balance + request.totalCost) },
            transactions := txn :: s.transactions,
            nextId := s.nextId + 1 },
         .approved)

/-! ## Vault management -/

def addToVault (amount : Int) (s : DadaState) : DadaState :=
  { s with vault := { s.vault with
      balance := min VAULT_MAX (s.vault.balance + amount) } }

def removeFromVault (amount : Int) (s : DadaState) : DadaState × Bool :=
  if s.vault.balance < amount then (s, false)
  else
    ({ s with vault := { s.vault with balance := s.vault.balance - amount } },
     true)

/-! ## Initial state and derived notions -/

/-- The 11 default tasks (`DEFAULT_TASKS`), with `id := index`. -/
def defaultTasks : List Task :=
  [ { id := 0, payout := 2, dailyMax := 5, completions := 0, isActive := true },
    { id := 1, payout := 3, dailyMax := 1, completions := 0, isActive := true },
    { id := 2, payout := 5, dailyMax := 7, completions := 0, isActive := true },
    { id := 3, payout := 3, dailyMax := 7, completions := 0, isActive := true },
    { id := 4, payout := 3, dailyMax := 3, completions := 0, isActive := true },
    { id := 5, payout := 10, dailyMax := 1, completions := 0, isActive := true },
    { id := 6, payout := 2, dailyMax := 3, completions := 0, isActive := true },
    { id := 7, payout := 2, dailyMax := 5, completions := 0, isActive := true },
    { id := 8, payout := 1, dailyMax := 10, completions := 0, isActive := true },
    { id := 9, payout := 5, dailyMax := 1, completions := 0, isActive := true },
    { id := 10, payout := 5, dailyMax := 1, completions := 0, isActive := true } ]

/-- `createDefaultChild`: a fresh child profile with all-zero balances. -/
def createDefaultChild (childId : Nat) (today : Nat) : ChildProfile :=
  { id := childId, balance := 0, savings := 0, savingsInterestAccrued := 0,
    totalEarned := 0, totalSpent := 0, pendingEarnings := 0,
    lastInterestDate := today }

/-- The store's initial state: one default child with all-zero balances,
a full Vault of 1000 and the default task catalog. -/
def initialState (today : Nat) : DadaState :=
  { children := [createDefaultChild 0 today],
    currentChildId := 0,
    vault := { balance := 1000, maxBalance := VAULT_MAX,
               dailyAllowance := DAILY_SPEND_LIMIT },
    tasks := defaultTasks,
    transactions := [], pendingRequests := [], requestHistory := [],
    approvedNotifications := [], strikes := [], lastResetDate := today,
    nextId := 1 }

/-- Currency held by one child, as counted by the conservation property. -/
def childHolding (c : ChildProfile) : Int :=
  c.balance + c.savings + c.pendingEarnings

def childrenTotal (l : List ChildProfile) : Int :=
  (l.map childHolding).sum

/-- The conserved quantity of the spec's Conservation property:
`vault.balance + Σ(child.balance + child.savings + child.pendingEarnings)`. -/
def moneySupply (s : DadaState) : Int :=
  s.vault.balance + childrenTotal s.children

/-- One engine operation, for statements quantifying over operations. -/
inductive Op where
  | completeTask (taskId : Nat)
  | undoTaskCompletion (taskId : Nat)
  | addStrike (reason : String)
  | removeStrike (strikeId : Nat)
  | resetStrikes
  | dailyReset
  | depositToSavings (amount : Int)
  | withdrawFromSavings (amount : Int)
  | createSpendRequest (items : List RequestItem)
  | cancelSpendRequest (requestId : Nat)
  | approveRequest (requestId : Nat)
  | denyRequest (requestId : Nat)
  | addToVault (amount : Int)
  | removeFromVault (amount : Int)
deriving DecidableEq

/-- State transition of one operation (results discarded). -/
def applyOp (now : Nat) : Op → DadaState → DadaState
  | .completeTask tid, s => (completeTask tid now s).1
  | .undoTaskCompletion tid, s => (undoTaskCompletion tid s).1
  | .addStrike reason, s => (addStrike reason now s).1
  | .removeStrike i, s => removeStrike i s
  | .resetStrikes, s => resetStrikes s
  | .dailyReset, s => (checkAndPerformDailyReset now s).1
  | .depositToSavings a, s => (depositToSavings a now s).1
  | .withdrawFromSavings a, s => (withdrawFromSavings a now s).1
  | .createSpendRequest items, s => (createSpendRequest items now s).1
  | .cancelSpendRequest rid, s => cancelSpendRequest rid s
  | .approveRequest rid, s => (approveRequest rid now s).1
  | .denyRequest rid, s => denyRequest rid now s
  | .addToVault a, s => addToVault a s
  | .removeFromVault a, s => (removeFromVault a s).1

/-! ## Concrete execution traces

Two concrete runs of the engine from the store's initial state, used as
evaluation witnesses and counterexamples.  `cNow1` is noon of day 10,
`cNow2` the 22:00 cutover of day 11 and `cNow3` the morning of day 12.

The forfeit trace: the child completes task 2 ("Workbook page", payout 5),
the earnings are released at the day-11 cutover (balance 5), the child
completes task 2 again on day 12 (pendingEarnings 5), collects 3 strikes
(forfeiting the 5 pending back into the Vault), the parent resets the
strikes, and the morning completion is then undone. -/

def cNow1 : Nat := 10 * 1440 + 720

def cNow2 : Nat := 11 * 1440 + 1320

def cNow3 : Nat := 12 * 1440 + 600

def forfeitTrace1 : DadaState := (completeTask 2 cNow1 (initialState 10)).1

def forfeitTrace2 : DadaState := (checkAndPerformDailyReset cNow2 forfeitTrace1).1

def forfeitTrace3 : DadaState := (completeTask 2 cNow3 forfeitTrace2).1

def forfeitTrace4 : DadaState := (addStrike "teasing" cNow3 forfeitTrace3).1

def forfeitTrace5 : DadaState := (addStrike "yelling" cNow3 forfeitTrace4).1

def forfeitTrace6 : DadaState := (addStrike "hitting" cNow3 forfeitTrace5).1

def forfeitTrace7 : DadaState := resetStrikes forfeitTrace6

/-- The spend trace: the child completes tasks 5, 9 and 10 (payouts
10, 5, 5) on day 10; the cutover of day 11 releases 20 into balance
(Vault 980); the parent tops the Vault up by 50 (clamped to 1000); the
child then requests a 20-cost item (request id 2). -/
def spendTrace1 : DadaState := (completeTask 5 cNow1 (initialState 10)).1

def spendTrace2 : DadaState := (completeTask 9 cNow1 spendTrace1).1

def spendTrace3 : DadaState := (completeTask 10 cNow1 spendTrace2).1

def spendTrace4 : DadaState := (checkAndPerformDailyReset cNow2 spendTrace3).1

def spendTrace5 : DadaState := addToVault 50 spendTrace4

def spendTrace6 : DadaState :=
  (createSpendRequest [{ cost := 20, quantity := 1 }] cNow3 spendTrace5).1

/-- Same as `spendTrace6` but without the Vault top-up, so the approval's
Vault credit does not clamp. -/
def spendTraceNoTopUp : DadaState :=
  (createSpendRequest [{ cost := 20, quantity := 1 }] cNow3 spendTrace4).1

/-! ## Helper lemmas -/

theorem qadd_eq (a b : ℚ) : qadd a b = a + b := by
  have ha : ((a.den : ℚ)) ≠ 0 := Nat.cast_ne_zero.mpr a.den_nz
  have hb : ((b.den : ℚ)) ≠ 0 := Nat.cast_ne_zero.mpr b.den_nz
  unfold qadd
  conv_rhs => rw [← Rat.num_div_den a, ← Rat.num_div_den b]
  rw [Rat.divInt_eq_div, div_add_div _ _ ha hb]
  push_cast
  ring_nf

theorem qsub_eq (a b : ℚ) : qsub a b = a - b := by
  have ha : ((a.den : ℚ)) ≠ 0 := Nat.cast_ne_zero.mpr a.den_nz
  have hb : ((b.den : ℚ)) ≠ 0 := Nat.cast_ne_zero.mpr b.den_nz
  unfold qsub
  conv_rhs => rw [← Rat.num_div_den a, ← Rat.num_div_den b]
  rw [Rat.divInt_eq_div, div_sub_div _ _ ha hb]
  push_cast
  ring_nf

theorem qmul_eq (a b : ℚ) : qmul a b = a * b := by
  unfold qmul
  conv_rhs => rw [← Rat.num_div_den a, ← Rat.num_div_den b]
  rw [Rat.divInt_eq_div, div_mul_div_comm]
  push_cast
  ring_nf

theorem find?_updateChildren_self (l : List ChildProfile) (cid : Nat)
    (f : ChildProfile → ChildProfile) (hid : ∀ x, (f x).id = x.id) :
    (updateChildren l cid f).find? (fun x => x.id == cid) =
      (l.find? (fun x => x.id == cid)).map f := by
  induction l with
  | nil => rfl
  | cons x t ih =>
    by_cases h : x.id = cid
    · have hb : (x.id == cid) = true := by simpa using h
      have hb2 : ((f x).id == cid) = true := by simpa [hid x] using h
      simp [updateChildren, List.find?, hb, hb2]
    · have hb : (x.id == cid) = false := by simpa using h
      have hb2 : ((f x).id == cid) = false := by simpa [hid x] using h
      simpa [updateChildren, List.find?, hb, hb2] using ih

theorem find?_updateChildren_ne (l : List ChildProfile) (cid : Nat)
    (f : ChildProfile → ChildProfile) (hid : ∀ x, (f x).id = x.id)
    (k : Nat) (hk : k ≠ cid) :
    (updateChildren l cid f).find? (fun x => x.id == k) =
      l.find? (fun x => x.id == k) := by
  induction l with
  | nil => rfl
  | cons x t ih =>
    by_cases h : x.id = cid
    · have hb : (x.id == cid) = true := by simpa using h
      have hxk : (x.id == k) = false := by
        simp only [beq_eq_false_iff_ne, ne_eq, h]
        exact fun hh => hk hh.symm
      have hfxk : ((f x).id == k) = false := by
        simp only [beq_eq_false_iff_ne, ne_eq, hid x, h]
        exact fun hh => hk hh.symm
      simpa [updateChildren, List.find?, hb, hxk, hfxk] using ih
    · have hb : (x.id == cid) = false := by simpa using h
      by_cases hxk : x.id = k
      · have hbk : (x.id == k) = true := by simpa using hxk
        simp [updateChildren, List.find?, hb, hbk]
      · have hbk : (x.id == k) = false := by simpa using hxk
        simpa [updateChildren, List.find?, hb, hbk] using ih

theorem find?_updateTasks_self (l : List Task) (tid : Nat)
    (f : Task → Task) (hid : ∀ x, (f x).id = x.id) :
    (updateTasks l tid f).find? (fun x => x.id == tid) =
      (l.find? (fun x => x.id == tid)).map f := by
  induction l with
  | nil => rfl
  | cons x t ih =>
    by_cases h : x.id = tid
    · have hb : (x.id == tid) = true := by simpa using h
      have hb2 : ((f x).id == tid) = true := by simpa [hid x] using h
      simp [updateTasks, List.find?, hb, hb2]
    · have hb : (x.id == tid) = false := by simpa using h
      have hb2 : ((f x).id == tid) = false := by simpa [hid x] using h
      simpa [updateTasks, List.find?, hb, hb2] using ih

theorem find?_updateTasks_ne (l : List Task) (tid : Nat)
    (f : Task → Task) (hid : ∀ x, (f x).id = x.id)
    (k : Nat) (hk : k ≠ tid) :
    (updateTasks l tid f).find? (fun x => x.id == k) =
      l.find? (fun x => x.id == k) := by
  induction l with
  | nil => rfl
  | cons x t ih =>
    by_cases h : x.id = tid
    · have hb : (x.id == tid) = true := by simpa using h
      have hxk : (x.id == k) = false := by
        simp only [beq_eq_false_iff_ne, ne_eq, h]
        exact fun hh => hk hh.symm
      have hfxk : ((f x).id == k) = false := by
        simp only [beq_eq_false_iff_ne, ne_eq, hid x, h]
        exact fun hh => hk hh.symm
      simpa [updateTasks, List.find?, hb, hxk, hfxk] using ih
    · have hb : (x.id == tid) = false := by simpa using h
      by_cases hxk : x.id = k
      · have hbk : (x.id == k) = true := by simpa using hxk
        simp [updateTasks, List.find?, hb, hbk]
      · have hbk : (x.id == k) = false := by simpa using hxk
        simpa [updateTasks, List.find?, hb, hbk] using ih

theorem updateChildren_eq_of_forall_ne (l : List ChildProfile) (cid : Nat)
    (f : ChildProfile → ChildProfile) (h : ∀ x ∈ l, x.id ≠ cid) :
    updateChildren l cid f = l := by
  induction l with
  | nil => rfl
  | cons x t ih =>
    have hx : ¬((x.id == cid) = true) := by simpa using h x (by simp)
    have ht := ih (fun y hy => h y (by simp [hy]))
    unfold updateChildren at ht ⊢
    rw [List.map_cons, if_neg hx, ht]

theorem childrenTotal_cons (c : ChildProfile) (l : List ChildProfile) :
    childrenTotal (c :: l) = childHolding c + childrenTotal l := by
  simp [childrenTotal]

theorem childrenTotal_updateChildren (l : List ChildProfile) (cid : Nat)
    (f : ChildProfile → ChildProfile) (c : ChildProfile)
    (hnd : (l.map ChildProfile.id).Nodup)
    (hc : l.find? (fun x => x.id == cid) = some c) :
    childrenTotal (updateChildren l cid f) =
      childrenTotal l + (childHolding (f c) - childHolding c) := by
  induction l with
  | nil => simp [List.find?] at hc
  | cons x t ih =>
    rw [List.map_cons, List.nodup_cons] at hnd
    by_cases h : x.id = cid
    · have hb : (x.id == cid) = true := by simpa using h
      have hcx : x = c := by simpa [List.find?, hb] using hc
      subst hcx
      have htail : updateChildren t cid f = t := by
        apply updateChildren_eq_of_forall_ne
        intro y hy hyc
        apply hnd.1
        have hxy : x.id = y.id := by rw [h, hyc]
        rw [hxy]
        exact List.mem_map_of_mem _ hy
      have hu : updateChildren (x :: t) cid f = f x :: t := by
        unfold updateChildren at htail ⊢
        rw [List.map_cons, if_pos hb, htail]
      rw [hu, childrenTotal_cons, childrenTotal_cons]
      ring
    · have hb : ¬((x.id == cid) = true) := by simpa using h
      have hb' : (x.id == cid) = false := by simpa using h
      have hc' : t.find? (fun y => y.id == cid) = some c := by
        simpa [List.find?, hb'] using hc
      have hu : updateChildren (x :: t) cid f = x :: updateChildren t cid f := by
        unfold updateChildren
        rw [List.map_cons, if_neg hb]
      rw [hu, childrenTotal_cons, childrenTotal_cons, ih hnd.2 hc']
      ring

theorem actingChild_find? (s : DadaState) (c : ChildProfile)
    (h : actingChild s = some c) :
    s.children.find? (fun x => x.id == c.id) = some c := by
  unfold actingChild at h
  cases hf : s.children.find? (fun x => x.id == s.currentChildId) with
  | some d =>
    rw [hf] at h
    have hdc : d = c := by injection h
    subst hdc
    have hd : d.id = s.currentChildId := by
      simpa using List.find?_some hf
    rw [hd]
    exact hf
  | none =>
    rw [hf] at h
    cases hl : s.children with
    | nil => rw [hl] at h; simp at h
    | cons y t =>
      rw [hl] at h
      simp only [List.head?] at h
      injection h with h
      subst h
      simp [List.find?]

theorem completeTask_pendingRequests (taskId now : Nat) (s : DadaState) :
    (completeTask taskId now s).1.pendingRequests = s.pendingRequests := by
  unfold completeTask
  dsimp only
  (repeat' split) <;> rfl

theorem undoTaskCompletion_pendingRequests (taskId : Nat) (s : DadaState) :
    (undoTaskCompletion taskId s).1.pendingRequests = s.pendingRequests := by
  unfold undoTaskCompletion
  dsimp only
  (repeat' split) <;> rfl

theorem addStrike_pendingRequests (reason : String) (now : Nat) (s : DadaState) :
    (addStrike reason now s).1.pendingRequests = s.pendingRequests := by
  unfold addStrike
  dsimp only
  (repeat' split) <;> rfl

theorem checkAndPerformDailyReset_pendingRequests (now : Nat) (s : DadaState) :
    (checkAndPerformDailyReset now s).1.pendingRequests = s.pendingRequests := by
  unfold checkAndPerformDailyReset
  dsimp only
  (repeat' split) <;> rfl

theorem depositToSavings_pendingRequests (amount : Int) (now : Nat) (s : DadaState) :
    (depositToSavings amount now s).1.pendingRequests = s.pendingRequests := by
  unfold depositToSavings
  dsimp only
  (repeat' split) <;> rfl

theorem withdrawFromSavings_pendingRequests (amount : Int) (now : Nat) (s : DadaState) :
    (withdrawFromSavings amount now s).1.pendingRequests = s.pendingRequests := by
  unfold withdrawFromSavings
  dsimp only
  (repeat' split) <;> rfl

theorem removeFromVault_pendingRequests (amount : Int) (s : DadaState) :
    (removeFromVault amount s).1.pendingRequests = s.pendingRequests := by
  unfold removeFromVault
  dsimp only
  (repeat' split) <;> rfl

/-- A pending request survives every branch of `createSpendRequest`. -/
theorem mem_createSpendRequest_pendingRequests (items : List RequestItem)
    (now : Nat) (s : DadaState) (r : SpendRequest) (hr : r ∈ s.pendingRequests) :
    r ∈ (createSpendRequest items now s).1.pendingRequests := by
  unfold createSpendRequest
  dsimp only
  (repeat' split)
  all_goals simp_all [List.mem_append]

/-- A pending request with a different id survives `denyRequest`. -/
theorem mem_denyRequest_pendingRequests (requestId now : Nat) (s : DadaState)
    (r : SpendRequest) (hr : r ∈ s.pendingRequests) (hne : r.id ≠ requestId) :
    r ∈ (denyRequest requestId now s).pendingRequests := by
  unfold denyRequest
  dsimp only
  (repeat' split)
  · exact hr
  · simp only [List.mem_filter]
    exact ⟨hr, by simpa using hne⟩

/-- A pending request with a different id survives `approveRequest`. -/
theorem mem_approveRequest_pendingRequests (requestId now : Nat) (s : DadaState)
    (r : SpendRequest) (hr : r ∈ s.pendingRequests) (hne : r.id ≠ requestId) :
    r ∈ (approveRequest requestId now s).1.pendingRequests := by
  unfold approveRequest
  dsimp only
  (repeat' split)
  · exact hr
  · exact hr
  · exact mem_denyRequest_pendingRequests requestId now s r hr hne
  · simp only [List.mem_filter]
    exact ⟨hr, by simpa using hne⟩

/-- A performed reset advances the `lastResetDate` watermark to today. -/
theorem checkAndPerformDailyReset_lastResetDate (now : Nat) (s : DadaState)
    (h : (checkAndPerformDailyReset now s).2.didReset = true) :
    (checkAndPerformDailyReset now s).1.lastResetDate = getTodayDate now := by
  unfold checkAndPerformDailyReset at h ⊢
  by_cases hs : shouldResetToday s.lastResetDate now = false
  · rw [if_pos hs] at h
    simp at h
  · rw [if_neg hs]

/-- Right after a reset at `now`, `shouldResetToday` is false again. -/
theorem shouldResetToday_after_reset (now : Nat) :
    shouldResetToday (getTodayDate now) now = false := by
  unfold shouldResetToday
  simp only [Bool.or_eq_false_iff, Bool.and_eq_false_iff,
    decide_eq_false_iff_not, not_le, not_lt]
  omega

/-! ## Claims -/

/-- C4: Reset idempotence — for any state and fixed current time, after a
first call of `checkAndPerformDailyReset` that performs the reset, an
immediately repeated call reports `didReset := false` and changes nothing. -/
theorem checkAndPerformDailyReset_idempotent (now : Nat) (s : DadaState)
    (h : (checkAndPerformDailyReset now s).2.didReset = true) :
    checkAndPerformDailyReset now ((checkAndPerformDailyReset now s).1) =
      ((checkAndPerformDailyReset now s).1,
        { didReset := false, earningsDeposited := 0, interestEarned := 0 }) := by
  have hl := checkAndPerformDailyReset_lastResetDate now s h
  obtain ⟨s1, hs1⟩ : ∃ s1, (checkAndPerformDailyReset now s).1 = s1 := ⟨_, rfl⟩
  rw [hs1] at hl ⊢
  unfold checkAndPerformDailyReset
  rw [hl, shouldResetToday_after_reset]
  simp

/-- C4 witness: the day-11 cutover reset on the forfeit trace fires once;
repeating it at the same instant is a reported no-op. -/
theorem checkAndPerformDailyReset_idempotent_witness :
    (checkAndPerformDailyReset cNow2 forfeitTrace1).2.didReset = true ∧
    checkAndPerformDailyReset cNow2 forfeitTrace2 =
      (forfeitTrace2,
        { didReset := false, earningsDeposited := 0, interestEarned := 0 }) :=
  ⟨by decide, checkAndPerformDailyReset_idempotent cNow2 forfeitTrace1 (by decide)⟩

/-- C6: the interest calculator maps 0 to (0,0), 100 to (1,0), 250 to
(2,50); in general it returns the floor `s / 100` of `s * 0.01` as whole
units, and the fractional part of `s * 0.01` as a carry of `s % 100`
hundredths, always between 0 and 99. -/
theorem calculateDailyInterest_spec :
    calculateDailyInterest 0 = { wholeAmount := 0, newAccrued := 0 } ∧
    calculateDailyInterest 100 = { wholeAmount := 1, newAccrued := 0 } ∧
    calculateDailyInterest 250 = { wholeAmount := 2, newAccrued := 50 } ∧
    ∀ s : Int,
      calculateDailyInterest s = { wholeAmount := s / 100, newAccrued := s % 100 } ∧
      0 ≤ (calculateDailyInterest s).newAccrued ∧
      (calculateDailyInterest s).newAccrued ≤ 99 := by
  refine ⟨by decide, by decide, by decide, ?_⟩
  intro s
  have hfl : ∀ q : ℚ, q.floor = ⌊q⌋ := fun q =>
    (Rat.floor_def' q).trans Rat.floor_def.symm
  have hf : ⌊(s : ℚ) * (1 / 100)⌋ = s / 100 := by
    rw [mul_one_div]
    simpa using Rat.floor_intCast_div_natCast s 100
  have hx : ((s : ℚ) * (1 / 100) - ((s / 100 : Int) : ℚ)) * 100 =
      ((s % 100 : Int) : ℚ) := by
    rw [Int.emod_def]
    push_cast
    ring
  have hmain : calculateDailyInterest s =
      { wholeAmount := s / 100, newAccrued := s % 100 } := by
    simp only [calculateDailyInterest, qadd_eq, qsub_eq, qmul_eq, hfl,
      Rat.divInt_eq_div, Rat.divInt_one]
    push_cast
    simp only [div_one]
    rw [hf, hx, ← round_eq, round_intCast]
  refine ⟨hmain, ?_, ?_⟩ <;> rw [hmain] <;> dsimp <;> omega

/-- C7: Cap idempotence — when the acting child's strike count for the
current day is already at `MAX_STRIKES`, `addStrike` fails and leaves the
whole state unchanged: no strike, no forfeiture, no Transaction. -/
theorem addStrike_at_cap (now : Nat) (s : DadaState) (reason : String)
    (c : ChildProfile) (hact : actingChild s = some c)
    (hcount : MAX_STRIKES ≤ todayStrikeCount s c.id (getTodayDate now)) :
    addStrike reason now s = (s, .capReached) := by
  unfold addStrike
  rw [hact]
  simp only [hcount, if_pos]

/-- C7 witness: on the forfeit trace right after the third strike of
day 12, a fourth `addStrike` fails with the state unchanged. -/
theorem addStrike_at_cap_witness :
    addStrike "again" cNow3 forfeitTrace6 = (forfeitTrace6, .capReached) :=
  addStrike_at_cap cNow3 forfeitTrace6 "again"
    { id := 0, balance := 5, savings := 0, savingsInterestAccrued := 0,
      totalEarned := 5, totalSpent := 0, pendingEarnings := 0,
      lastInterestDate := 11 }
    (by decide) (by decide)

/-- C9 counterexample: for a negative amount the claim fails — `addToVault`
only clamps from above, so `addToVault (-2000)` drives the Vault balance of
the initial state to -1000, outside [0, maxBalance]. -/
theorem vault_bounds_counterexample :
    (addToVault (-2000) (initialState 10)).vault.balance = -1000 ∧
    (addToVault (-2000) (initialState 10)).vault.balance < 0 := by
  constructor
  · decide
  · decide

/-- C9 (amended): for every NON-NEGATIVE amount, starting from a Vault
balance inside [0, maxBalance], `addToVault` clamps the result to the
interval and `removeFromVault` returns false and leaves the Vault
unchanged whenever the amount exceeds the balance, so the balance never
leaves [0, maxBalance]. -/
theorem vault_bounds (s : DadaState) (amount : Int)
    (hamt : 0 ≤ amount) (hlo : 0 ≤ s.vault.balance)
    (hhi : s.vault.balance ≤ VAULT_MAX) :
    (0 ≤ (addToVault amount s).vault.balance ∧
      (addToVault amount s).vault.balance ≤ VAULT_MAX ∧
      (addToVault amount s).vault.balance = min VAULT_MAX (s.vault.balance + amount)) ∧
    (0 ≤ (removeFromVault amount s).1.vault.balance ∧
      (removeFromVault amount s).1.vault.balance ≤ VAULT_MAX) ∧
    (s.vault.balance < amount → removeFromVault amount s = (s, false)) := by
  unfold addToVault removeFromVault
  unfold VAULT_MAX at *
  refine ⟨⟨?_, ?_, rfl⟩, ?_, ?_⟩
  · dsimp
    omega
  · dsimp
    omega
  · by_cases h : s.vault.balance < amount
    · rw [if_pos h]
      dsimp only
      omega
    · rw [if_neg h]
      dsimp
      omega
  · intro h
    rw [if_pos h]

/-- C9 witness: adding 50 to the full initial Vault keeps the balance at
the 1000 cap, inside the interval. -/
theorem vault_bounds_witness :
    0 ≤ (addToVault 50 (initialState 10)).vault.balance ∧
    (addToVault 50 (initialState 10)).vault.balance ≤ VAULT_MAX ∧
    (addToVault 50 (initialState 10)).vault.balance =
      min VAULT_MAX ((initialState 10).vault.balance + 50) :=
  (vault_bounds (initialState 10) 50 (by decide) (by decide) (by decide)).1

/-- C10: `cancelSpendRequest` only filters the matching request out of the
pending list; children, vault, tasks, transactions, request history,
notifications, strikes and the reset watermark are untouched, and when no
pending request carries the id the whole state is unchanged. -/
theorem cancelSpendRequest_frame (requestId : Nat) (s : DadaState) :
    (cancelSpendRequest requestId s).pendingRequests =
        s.pendingRequests.filter (fun r => r.id != requestId) ∧
    (cancelSpendRequest requestId s).children = s.children ∧
    (cancelSpendRequest requestId s).vault = s.vault ∧
    (cancelSpendRequest requestId s).tasks = s.tasks ∧
    (cancelSpendRequest requestId s).transactions = s.transactions ∧
    (cancelSpendRequest requestId s).requestHistory = s.requestHistory ∧
    (cancelSpendRequest requestId s).approvedNotifications =
        s.approvedNotifications ∧
    (cancelSpendRequest requestId s).strikes = s.strikes ∧
    (cancelSpendRequest requestId s).lastResetDate = s.lastResetDate ∧
    (cancelSpendRequest requestId s).currentChildId = s.currentChildId ∧
    (cancelSpendRequest requestId s).nextId = s.nextId ∧
    ((∀ r ∈ s.pendingRequests, r.id ≠ requestId) →
      cancelSpendRequest requestId s = s) := by
  refine ⟨rfl, rfl, rfl, rfl, rfl, rfl, rfl, rfl, rfl, rfl, rfl, ?_⟩
  intro h
  have hfil : s.pendingRequests.filter (fun r => r.id != requestId) =
      s.pendingRequests := by
    apply List.filter_eq_self.mpr
    intro r hr
    simpa using h r hr
  unfold cancelSpendRequest
  rw [hfil]

/-- C10 witness: cancelling an id that is not pending on the spend trace
leaves the state untouched. -/
theorem cancelSpendRequest_frame_witness :
    cancelSpendRequest 99 spendTrace6 = spendTrace6 :=
  (cancelSpendRequest_frame 99 spendTrace6).2.2.2.2.2.2.2.2.2.2.2 (by decide)

/-- C3: `completeTask` fails with the state unchanged when the task is
absent, inactive, the acting child already has `MAX_STRIKES` strikes today,
the daily completion cap is reached, or the Vault cannot cover the payout;
otherwise it increments that task's completions, adds the payout to the
acting child's `pendingEarnings` (not balance), debits the Vault by the
payout, leaves every other task and child alone, and appends no
Transaction. -/
theorem completeTask_spec (now : Nat) (s : DadaState) (taskId : Nat) :
    (findTask s taskId = none →
      completeTask taskId now s = (s, .notFound)) ∧
    (∀ t, findTask s taskId = some t → t.isActive = false →
      completeTask taskId now s = (s, .inactive)) ∧
    (∀ t c, findTask s taskId = some t → t.isActive = true →
      actingChild s = some c →
      MAX_STRIKES ≤ todayStrikeCount s c.id (getTodayDate now) →
      completeTask taskId now s = (s, .strikesExhausted)) ∧
    (∀ t c, findTask s taskId = some t → t.isActive = true →
      actingChild s = some c →
      todayStrikeCount s c.id (getTodayDate now) < MAX_STRIKES →
      t.dailyMax ≤ t.completions →
      completeTask taskId now s = (s, .dailyCapReached)) ∧
    (∀ t c, findTask s taskId = some t → t.isActive = true →
      actingChild s = some c →
      todayStrikeCount s c.id (getTodayDate now) < MAX_STRIKES →
      t.completions < t.dailyMax →
      s.vault.balance < t.payout →
      completeTask taskId now s = (s, .vaultInsufficient)) ∧
    (∀ t c, findTask s taskId = some t → t.isActive = true →
      actingChild s = some c →
      todayStrikeCount s c.id (getTodayDate now) < MAX_STRIKES →
      t.completions < t.dailyMax →
      t.payout ≤ s.vault.balance →
      (completeTask taskId now s).2 = .completed t.payout ∧
      findTask (completeTask taskId now s).1 taskId =
        some { t with completions := t.completions + 1 } ∧
      findChild (completeTask taskId now s).1 c.id =
        some { c with pendingEarnings := c.pendingEarnings + t.payout } ∧
      (completeTask taskId now s).1.vault.balance =
        s.vault.balance - t.payout ∧
      (completeTask taskId now s).1.transactions = s.transactions ∧
      (∀ k, k ≠ taskId → findTask (completeTask taskId now s).1 k = findTask s k) ∧
      (∀ k, k ≠ c.id → findChild (completeTask taskId now s).1 k = findChild s k)) := by
  refine ⟨?_, ?_, ?_, ?_, ?_, ?_⟩
  · intro hft
    unfold completeTask
    rw [hft]
  · intro t hft hia
    unfold completeTask
    rw [hft]
    simp [hia]
  · intro t c hft hia hact hstr
    unfold completeTask
    rw [hft, hact]
    simp [hia, hstr]
  · intro t c hft hia hact hstr hcap
    have hns : ¬ MAX_STRIKES ≤ todayStrikeCount s c.id (getTodayDate now) := by
      omega
    unfold completeTask
    rw [hft, hact]
    simp [hia, hns, hcap]
  · intro t c hft hia hact hstr hcap hv
    have hns : ¬ MAX_STRIKES ≤ todayStrikeCount s c.id (getTodayDate now) := by
      omega
    have hnc : ¬ t.dailyMax ≤ t.completions := by omega
    unfold completeTask
    rw [hft, hact]
    simp [hia, hns, hnc, hv]
  · intro t c hft hia hact hstr hcap hv
    have hns : ¬ MAX_STRIKES ≤ todayStrikeCount s c.id (getTodayDate now) := by omega
    have hnc : ¬ t.dailyMax ≤ t.completions := by omega
    have hnv : ¬ s.vault.balance < t.payout := by omega
    have hred : completeTask taskId now s =
        ({ s with
            tasks := updateTasks s.tasks taskId (fun u =>
              { u with completions := u.completions + 1 }),
            children := updateChildren s.children c.id (fun u =>
              { u with pendingEarnings := u.pendingEarnings + t.payout }),
            vault := { s.vault with balance := s.vault.balance - t.payout } },
         .completed t.payout) := by
      unfold completeTask
      rw [hft, hact]
      simp [hia, hns, hnc, hnv]
    rw [hred]
    refine ⟨rfl, ?_, ?_, rfl, rfl, ?_, ?_⟩
    · show (updateTasks s.tasks taskId (fun u =>
          { u with completions := u.completions + 1 })).find?
            (fun u => u.id == taskId) = _
      rw [find?_updateTasks_self s.tasks taskId
        (fun u => { u with completions := u.completions + 1 }) (fun u => rfl)]
      unfold findTask at hft
      rw [hft]
      rfl
    · show (updateChildren s.children c.id (fun u =>
          { u with pendingEarnings := u.pendingEarnings + t.payout })).find?
            (fun u => u.id == c.id) = _
      rw [find?_updateChildren_self s.children c.id
          (fun u => { u with pendingEarnings := u.pendingEarnings + t.payout })
          (fun u => rfl),
        actingChild_find? s c hact]
      rfl
    · intro k hk
      show (updateTasks s.tasks taskId (fun u =>
          { u with completions := u.completions + 1 })).find?
            (fun u => u.id == k) = _
      rw [find?_updateTasks_ne s.tasks taskId
        (fun u => { u with completions := u.completions + 1 }) (fun u => rfl) k hk]
      rfl
    · intro k hk
      show (updateChildren s.children c.id (fun u =>
          { u with pendingEarnings := u.pendingEarnings + t.payout })).find?
            (fun u => u.id == k) = _
      rw [find?_updateChildren_ne s.children c.id
        (fun u => { u with pendingEarnings := u.pendingEarnings + t.payout })
        (fun u => rfl) k hk]
      rfl

theorem actingChild_eq_of (a b : DadaState) (hc : a.children = b.children)
    (hid : a.currentChildId = b.currentChildId) :
    actingChild a = actingChild b := by
  unfold actingChild
  rw [hc, hid]

/-- Effects of a non-final strike: only the strike list and the id counter
change. -/
theorem addStrike_nonthird (now : Nat) (s : DadaState) (c : ChildProfile)
    (reason : String) (hact : actingChild s = some c) (k : Nat)
    (hcount : todayStrikeCount s c.id (getTodayDate now) = k) (hk : k + 1 < 3) :
    (addStrike reason now s).2 = .struck (k + 1) ∧
    (addStrike reason now s).1.children = s.children ∧
    (addStrike reason now s).1.currentChildId = s.currentChildId ∧
    (addStrike reason now s).1.strikes =
      s.strikes ++ [mkStrike s.nextId c.id reason now (getTodayDate now)] ∧
    (addStrike reason now s).1.vault = s.vault ∧
    (addStrike reason now s).1.transactions = s.transactions := by
  have hM : MAX_STRIKES = 3 := rfl
  have hlt : ¬ MAX_STRIKES ≤ todayStrikeCount s c.id (getTodayDate now) := by
    omega
  have hlt2 : ¬ MAX_STRIKES ≤ todayStrikeCount s c.id (getTodayDate now) + 1 := by
    omega
  have hred : addStrike reason now s =
      ({ s with
          strikes := s.strikes ++
            [mkStrike s.nextId c.id reason now (getTodayDate now)],
          nextId := s.nextId + 1 },
       .struck (todayStrikeCount s c.id (getTodayDate now) + 1)) := by
    unfold addStrike
    rw [hact]
    simp [hlt, hlt2, mkStrike]
  rw [hred, hcount]
  exact ⟨rfl, rfl, rfl, rfl, rfl, rfl⟩

/-- Effects of the strike that reaches `MAX_STRIKES`: the pending earnings
are forfeited into the Vault (clamped), and a `strike_penalty` Transaction
is logged exactly when the forfeited amount is positive. -/
theorem addStrike_third (now : Nat) (s : DadaState) (c : ChildProfile)
    (reason : String) (hact : actingChild s = some c)
    (hcount : todayStrikeCount s c.id (getTodayDate now) = 2) :
    (addStrike reason now s).2 = .forfeitTriggered c.pendingEarnings ∧
    (addStrike reason now s).1.children =
      updateChildren s.children c.id (fun u => { u with pendingEarnings := 0 }) ∧
    (addStrike reason now s).1.vault.balance =
      min VAULT_MAX (s.vault.balance + c.pendingEarnings) ∧
    (addStrike reason now s).1.transactions =
      (if 0 < c.pendingEarnings then
        { id := s.nextId + 1, childId := c.id, type := .strikePenalty,
          amount := -c.pendingEarnings, timestamp := now } :: s.transactions
       else s.transactions) ∧
    (addStrike reason now s).1.strikes =
      s.strikes ++ [mkStrike s.nextId c.id reason now (getTodayDate now)] := by
  have hM : MAX_STRIKES = 3 := rfl
  have hlt : ¬ MAX_STRIKES ≤ todayStrikeCount s c.id (getTodayDate now) := by
    omega
  have hge : MAX_STRIKES ≤ todayStrikeCount s c.id (getTodayDate now) + 1 := by
    omega
  have hred : addStrike reason now s =
      ({ s with
          strikes := s.strikes ++
            [mkStrike s.nextId c.id reason now (getTodayDate now)],
          children := updateChildren s.children c.id (fun u =>
            { u with pendingEarnings := 0 }),
          vault := { s.vault with
            balance := min VAULT_MAX (s.vault.balance + c.pendingEarnings) },
          transactions :=
            if 0 < c.pendingEarnings then
              { id := s.nextId + 1, childId := c.id, type := .strikePenalty,
                amount := -c.pendingEarnings, timestamp := now } :: s.transactions
            else s.transactions,
          nextId := s.nextId + 2 },
       .forfeitTriggered c.pendingEarnings) := by
    unfold addStrike
    rw [hact]
    simp [hlt, hge, mkStrike]
  rw [hred]
  exact ⟨rfl, rfl, rfl, rfl, rfl⟩

/-- C2: the strike that brings the acting child's count for the current day
to exactly MAX_STRIKES zeroes that child's `pendingEarnings`, credits the
forfeited amount back to the Vault capped at `maxBalance`, and appends a
`strike_penalty` Transaction carrying the (negated) forfeited amount if and
only if that amount is positive; and after `resetStrikes`, three fresh
strikes trigger the same forfeiture again. -/
theorem addStrike_forfeiture_spec (now : Nat) (s : DadaState)
    (c : ChildProfile) (hact : actingChild s = some c) :
    (∀ reason, todayStrikeCount s c.id (getTodayDate now) = MAX_STRIKES - 1 →
      (addStrike reason now s).2 = .forfeitTriggered c.pendingEarnings ∧
      findChild (addStrike reason now s).1 c.id =
        some { c with pendingEarnings := 0 } ∧
      (addStrike reason now s).1.vault.balance =
        min VAULT_MAX (s.vault.balance + c.pendingEarnings) ∧
      (addStrike reason now s).1.transactions =
        (if 0 < c.pendingEarnings then
          { id := s.nextId + 1, childId := c.id, type := .strikePenalty,
            amount := -c.pendingEarnings, timestamp := now } :: s.transactions
         else s.transactions)) ∧
    (∀ r1 r2 r3,
      (addStrike r3 now
        ((addStrike r2 now ((addStrike r1 now (resetStrikes s)).1)).1)).2 =
          .forfeitTriggered c.pendingEarnings ∧
      findChild (addStrike r3 now
        ((addStrike r2 now ((addStrike r1 now (resetStrikes s)).1)).1)).1 c.id =
          some { c with pendingEarnings := 0 }) := by
  constructor
  · intro reason hcount
    have h := addStrike_third now s c reason hact hcount
    refine ⟨h.1, ?_, h.2.2.1, h.2.2.2.1⟩
    show (addStrike reason now s).1.children.find? (fun u => u.id == c.id) = _
    rw [h.2.1, find?_updateChildren_self s.children c.id
      (fun u => { u with pendingEarnings := 0 }) (fun u => rfl),
      actingChild_find? s c hact]
    rfl
  · intro r1 r2 r3
    have hact0 : actingChild (resetStrikes s) = some c := hact
    have hc0 : todayStrikeCount (resetStrikes s) c.id (getTodayDate now) = 0 := rfl
    have f1 := addStrike_nonthird now (resetStrikes s) c r1 hact0 0 hc0
      (by omega)
    have hact1 : actingChild (addStrike r1 now (resetStrikes s)).1 = some c :=
      (actingChild_eq_of _ _ f1.2.1 f1.2.2.1).trans hact0
    have hcount1 : todayStrikeCount (addStrike r1 now (resetStrikes s)).1 c.id
        (getTodayDate now) = 1 := by
      unfold todayStrikeCount
      rw [f1.2.2.2.1]
      simp [resetStrikes, mkStrike]
    have f2 := addStrike_nonthird now (addStrike r1 now (resetStrikes s)).1 c
      r2 hact1 1 hcount1 (by omega)
    have hact2 : actingChild
        ((addStrike r2 now ((addStrike r1 now (resetStrikes s)).1)).1) = some c :=
      (actingChild_eq_of _ _ f2.2.1 f2.2.2.1).trans hact1
    have hcount2 : todayStrikeCount
        ((addStrike r2 now ((addStrike r1 now (resetStrikes s)).1)).1) c.id
        (getTodayDate now) = 2 := by
      unfold todayStrikeCount
      rw [f2.2.2.2.1, f1.2.2.2.1]
      simp [resetStrikes, mkStrike]
    have f3 := addStrike_third now
      ((addStrike r2 now ((addStrike r1 now (resetStrikes s)).1)).1) c r3
      hact2 hcount2
    refine ⟨f3.1, ?_⟩
    show (addStrike r3 now _).1.children.find? (fun u => u.id == c.id) = _
    rw [f3.2.1, find?_updateChildren_self _ c.id
      (fun u => { u with pendingEarnings := 0 }) (fun u => rfl),
      f2.2.1, f1.2.1]
    have hrc : (resetStrikes s).children = s.children := rfl
    rw [hrc, actingChild_find? s c hact]
    rfl

/-- C2 witness: on the forfeit trace the 3rd strike of day 12 forfeits the
5 pending Dada Bucks with a `strike_penalty` Transaction, and the same
forfeiture is triggered again by three fresh strikes after `resetStrikes`. -/
theorem addStrike_forfeiture_spec_witness :
    ((addStrike "hitting" cNow3 forfeitTrace5).2 =
      .forfeitTriggered 5 ∧
     (addStrike "hitting" cNow3 forfeitTrace5).1.vault.balance = 995) ∧
    (addStrike "z" cNow3
      ((addStrike "y" cNow3
        ((addStrike "x" cNow3 (resetStrikes forfeitTrace5)).1)).1)).2 =
      .forfeitTriggered 5 := by
  have hA := (addStrike_forfeiture_spec cNow3 forfeitTrace5
    { id := 0, balance := 5, savings := 0, savingsInterestAccrued := 0,
      totalEarned := 5, totalSpent := 0, pendingEarnings := 5,
      lastInterestDate := 11 } (by decide)).1 "hitting" (by decide)
  have hB := (addStrike_forfeiture_spec cNow3 forfeitTrace5
    { id := 0, balance := 5, savings := 0, savingsInterestAccrued := 0,
      totalEarned := 5, totalSpent := 0, pendingEarnings := 5,
      lastInterestDate := 11 } (by decide)).2 "x" "y" "z"
  refine ⟨⟨hA.1, ?_⟩, hB.1⟩
  rw [hA.2.2.1]
  decide

/-- C3 witness: completing the workbook task (payout 5) on the fresh
initial state succeeds and produces exactly the `forfeitTrace1` effects. -/
theorem completeTask_spec_witness :
    (completeTask 2 cNow1 (initialState 10)).2 = .completed 5 ∧
    (completeTask 2 cNow1 (initialState 10)).1.vault.balance = 995 := by
  have h := (completeTask_spec cNow1 (initialState 10) 2).2.2.2.2.2
    { id := 2, payout := 5, dailyMax := 7, completions := 0, isActive := true }
    (createDefaultChild 0 10)
    (by decide) (by decide) (by decide) (by decide) (by decide) (by decide)
  exact ⟨h.1, by rw [h.2.2.2.1]; decide⟩

/-- C8: Request exclusivity — `createSpendRequest` fails and creates
nothing while the acting child already has a pending request, and a pending
request survives every engine operation except the `approveRequest`,
`denyRequest` or `cancelSpendRequest` that targets its id, so the failure
persists until one of those runs. -/
theorem createSpendRequest_exclusive (now : Nat) (s : DadaState) :
    (∀ items c, actingChild s = some c →
      (∃ r ∈ s.pendingRequests,
        r.childId = c.id ∧ r.status = RequestStatus.pending) →
      createSpendRequest items now s = (s, .alreadyPending)) ∧
    (∀ (op : Op) (r : SpendRequest), r ∈ s.pendingRequests →
      op ≠ Op.approveRequest r.id → op ≠ Op.denyRequest r.id →
      op ≠ Op.cancelSpendRequest r.id →
      r ∈ (applyOp now op s).pendingRequests) := by
  constructor
  · intro items c hact hex
    obtain ⟨r, hr, hcid, hstat⟩ := hex
    have hmem : r ∈ s.pendingRequests.filter (fun x =>
        x.childId == c.id && x.status == RequestStatus.pending) := by
      rw [List.mem_filter]
      exact ⟨hr, by simp [hcid, hstat]⟩
    have hpos : 0 < (s.pendingRequests.filter (fun x =>
        x.childId == c.id && x.status == RequestStatus.pending)).length :=
      List.length_pos_of_mem hmem
    unfold createSpendRequest
    rw [hact]
    simp [hpos]
  · intro op r hr hna hnd hnc
    cases op with
    | completeTask tid =>
      show r ∈ (completeTask tid now s).1.pendingRequests
      rw [completeTask_pendingRequests]
      exact hr
    | undoTaskCompletion tid =>
      show r ∈ (undoTaskCompletion tid s).1.pendingRequests
      rw [undoTaskCompletion_pendingRequests]
      exact hr
    | addStrike reason =>
      show r ∈ (addStrike reason now s).1.pendingRequests
      rw [addStrike_pendingRequests]
      exact hr
    | removeStrike i => exact hr
    | resetStrikes => exact hr
    | dailyReset =>
      show r ∈ (checkAndPerformDailyReset now s).1.pendingRequests
      rw [checkAndPerformDailyReset_pendingRequests]
      exact hr
    | depositToSavings a =>
      show r ∈ (depositToSavings a now s).1.pendingRequests
      rw [depositToSavings_pendingRequests]
      exact hr
    | withdrawFromSavings a =>
      show r ∈ (withdrawFromSavings a now s).1.pendingRequests
      rw [withdrawFromSavings_pendingRequests]
      exact hr
    | createSpendRequest items =>
      exact mem_createSpendRequest_pendingRequests items now s r hr
    | cancelSpendRequest rid =>
      have hne : r.id ≠ rid := fun h => hnc (by rw [h])
      show r ∈ (cancelSpendRequest rid s).pendingRequests
      unfold cancelSpendRequest
      simp only [List.mem_filter]
      exact ⟨hr, by simpa using hne⟩
    | approveRequest rid =>
      have hne : r.id ≠ rid := fun h => hna (by rw [h])
      exact mem_approveRequest_pendingRequests rid now s r hr hne
    | denyRequest rid =>
      have hne : r.id ≠ rid := fun h => hnd (by rw [h])
      exact mem_denyRequest_pendingRequests rid now s r hr hne
    | addToVault a => exact hr
    | removeFromVault a =>
      show r ∈ (removeFromVault a s).1.pendingRequests
      rw [removeFromVault_pendingRequests]
      exact hr

/-- C8 witness: on the spend trace the child's request (id 2) is pending,
so a second `createSpendRequest` fails, and the pending request survives an
unrelated `completeTask`. -/
theorem createSpendRequest_exclusive_witness :
    createSpendRequest [{ cost := 5, quantity := 1 }] cNow3 spendTrace6 =
      (spendTrace6, .alreadyPending) ∧
    { id := 2, childId := 0, items := [{ cost := 20, quantity := 1 }],
      totalCost := 20, status := RequestStatus.pending, requestedAt := cNow3,
      respondedAt := none } ∈
        (applyOp cNow3 (Op.completeTask 2) spendTrace6).pendingRequests := by
  constructor
  · exact (createSpendRequest_exclusive cNow3 spendTrace6).1
      [{ cost := 5, quantity := 1 }]
      { id := 0, balance := 20, savings := 0, savingsInterestAccrued := 0,
        totalEarned := 20, totalSpent := 0, pendingEarnings := 0,
        lastInterestDate := 11 }
      (by decide) (by decide)
  · exact (createSpendRequest_exclusive cNow3 spendTrace6).2
      (Op.completeTask 2)
      { id := 2, childId := 0, items := [{ cost := 20, quantity := 1 }],
        totalCost := 20, status := RequestStatus.pending,
        requestedAt := cNow3, respondedAt := none }
      (by decide) (by decide) (by decide) (by decide)

/-- C5 counterexample: on the reachable spend trace (Vault topped up to the
1000 cap, request of totalCost 20 pending, child balance 20), approval
succeeds but the Vault balance stays at 1000 — it is NOT credited by
`totalCost`, because the credit is clamped at `maxBalance`. -/
theorem approveRequest_vault_credit_counterexample :
    (approveRequest 2 cNow3 spendTrace6).2 = .approved ∧
    spendTrace6.vault.balance = 1000 ∧
    (spendTrace6.pendingRequests.find? (fun r => r.id == 2)).map
      SpendRequest.totalCost = some 20 ∧
    (approveRequest 2 cNow3 spendTrace6).1.vault.balance = 1000 ∧
    (approveRequest 2 cNow3 spendTrace6).1.vault.balance ≠
      spendTrace6.vault.balance + 20 := by
  refine ⟨by decide, by decide, by decide, by decide, by decide⟩

/-- C5 (amended): `approveRequest` fails with no state change when no
pending request has the id; when the request's totalCost exceeds the
child's current balance it auto-denies (moving the request to history as
denied) and reports failure; otherwise it debits the child's balance by
totalCost, adds totalCost to the child's totalSpent, credits the Vault by
totalCost CAPPED AT maxBalance, appends exactly one `spend` Transaction,
moves the request to history as approved, and creates one notification
with `shownToChild := false`. -/
theorem approveRequest_spec (now rid : Nat) (s : DadaState) :
    (s.pendingRequests.find? (fun r => r.id == rid) = none →
      approveRequest rid now s = (s, .notFound)) ∧
    (∀ r c, s.pendingRequests.find? (fun x => x.id == rid) = some r →
      findChild s r.childId = some c →
      c.balance < r.totalCost →
      approveRequest rid now s = (denyRequest rid now s, .insufficientDenied) ∧
      (denyRequest rid now s).pendingRequests =
        s.pendingRequests.filter (fun x => x.id != rid) ∧
      (denyRequest rid now s).requestHistory =
        { r with status := RequestStatus.denied, respondedAt := some now } ::
          s.requestHistory ∧
      (denyRequest rid now s).children = s.children ∧
      (denyRequest rid now s).vault = s.vault ∧
      (denyRequest rid now s).transactions = s.transactions) ∧
    (∀ r c, s.pendingRequests.find? (fun x => x.id == rid) = some r →
      findChild s r.childId = some c →
      r.totalCost ≤ c.balance →
      (approveRequest rid now s).2 = .approved ∧
      findChild (approveRequest rid now s).1 r.childId =
        some { c with balance := c.balance - r.totalCost,
                      totalSpent := c.totalSpent + r.totalCost } ∧
      (∀ k, k ≠ r.childId →
        findChild (approveRequest rid now s).1 k = findChild s k) ∧
      (approveRequest rid now s).1.vault.balance =
        min VAULT_MAX (s.vault.balance + r.totalCost) ∧
      (approveRequest rid now s).1.transactions =
        { id := s.nextId, childId := c.id, type := TransactionType.spend,
          amount := -r.totalCost, timestamp := now } :: s.transactions ∧
      (approveRequest rid now s).1.pendingRequests =
        s.pendingRequests.filter (fun x => x.id != rid) ∧
      (approveRequest rid now s).1.requestHistory =
        { r with status := RequestStatus.approved, respondedAt := some now } ::
          s.requestHistory ∧
      (approveRequest rid now s).1.approvedNotifications =
        { requestId := r.id, items := r.items, totalCost := r.totalCost,
          approvedAt := now, shownToChild := false } ::
          s.approvedNotifications) := by
  refine ⟨?_, ?_, ?_⟩
  · intro h
    unfold approveRequest
    rw [h]
  · intro r c hfr hfc hlt
    have hfc' : s.children.find? (fun x => x.id == r.childId) = some c := hfc
    have hred : approveRequest rid now s =
        (denyRequest rid now s, .insufficientDenied) := by
      simp [approveRequest, hfr, hfc', hlt]
    have hdred : denyRequest rid now s =
        { s with
            pendingRequests := s.pendingRequests.filter (fun x => x.id != rid),
            requestHistory :=
              { r with status := RequestStatus.denied, respondedAt := some now } ::
                s.requestHistory } := by
      unfold denyRequest
      rw [hfr]
    exact ⟨hred, by rw [hdred], by rw [hdred], by rw [hdred], by rw [hdred],
      by rw [hdred]⟩
  · intro r c hfr hfc hle
    have hfc' : s.children.find? (fun x => x.id == r.childId) = some c := hfc
    have hcid : c.id = r.childId := by simpa using List.find?_some hfc'
    have hnlt : ¬ c.balance < r.totalCost := by omega
    have hred : approveRequest rid now s =
        ({ s with
            pendingRequests := s.pendingRequests.filter (fun x => x.id != rid),
            requestHistory :=
              { r with status := RequestStatus.approved, respondedAt := some now } ::
                s.requestHistory,
            approvedNotifications :=
              { requestId := r.id, items := r.items, totalCost := r.totalCost,
                approvedAt := now, shownToChild := false } ::
                s.approvedNotifications,
            children := updateChildren s.children c.id (fun u =>
              { u with balance := u.balance - r.totalCost,
                       totalSpent := u.totalSpent + r.totalCost }),
            vault := { s.vault with
              balance := min VAULT_MAX (s.vault.balance + r.totalCost) },
            transactions :=
              { id := s.nextId, childId := c.id, type := TransactionType.spend,
                amount := -r.totalCost, timestamp := now } :: s.transactions,
            nextId := s.nextId + 1 },
         .approved) := by
      simp [approveRequest, hfr, hfc', hnlt]
    rw [hred]
    refine ⟨rfl, ?_, ?_, rfl, rfl, rfl, rfl, rfl⟩
    · have hq : s.children.find? (fun x => x.id == c.id) = some c := by
        rw [hcid]
        exact hfc'
      show (updateChildren s.children c.id (fun u =>
          { u with balance := u.balance - r.totalCost,
                   totalSpent := u.totalSpent + r.totalCost })).find?
            (fun x => x.id == r.childId) = _
      rw [← hcid, find?_updateChildren_self s.children c.id
        (fun u =>
          { u with balance := u.balance - r.totalCost,
                   totalSpent := u.totalSpent + r.totalCost })
        (fun u => rfl), hq]
      rfl
    · intro k hk
      have hk' : k ≠ c.id := by rw [hcid]; exact hk
      show (updateChildren s.children c.id (fun u =>
          { u with balance := u.balance - r.totalCost,
                   totalSpent := u.totalSpent + r.totalCost })).find?
            (fun x => x.id == k) = _
      rw [find?_updateChildren_ne s.children c.id
        (fun u =>
          { u with balance := u.balance - r.totalCost,
                   totalSpent := u.totalSpent + r.totalCost })
        (fun u => rfl) k hk']
      rfl

/-- C5 witness: on the spend trace without the Vault top-up (Vault 980,
request total 20, balance 20) the approval succeeds and credits the Vault
by the full 20 (the clamp does not bind). -/
theorem approveRequest_spec_witness :
    (approveRequest 2 cNow3 spendTraceNoTopUp).2 = .approved ∧
    (approveRequest 2 cNow3 spendTraceNoTopUp).1.vault.balance =
      min VAULT_MAX (spendTraceNoTopUp.vault.balance + 20) := by
  have h := (approveRequest_spec cNow3 2 spendTraceNoTopUp).2.2
    { id := 2, childId := 0, items := [{ cost := 20, quantity := 1 }],
      totalCost := 20, status := RequestStatus.pending, requestedAt := cNow3,
      respondedAt := none }
    { id := 0, balance := 20, savings := 0, savingsInterestAccrued := 0,
      totalEarned := 20, totalSpent := 0, pendingEarnings := 0,
      lastInterestDate := 11 }
    (by decide) (by decide) (by decide)
  exact ⟨h.1, h.2.2.2.1⟩

theorem denyRequest_moneySupply (rid now : Nat) (s : DadaState) :
    moneySupply (denyRequest rid now s) = moneySupply s := by
  unfold denyRequest
  split <;> rfl

/-- C1 counterexample: the conserved quantity is NOT invariant under the
listed operations.  On the reachable state `forfeitTrace7` (complete the
workbook task, release it at the cutover, complete it again, forfeit the
new pending earnings via 3 strikes, reset the strikes), undoing the stale
completion floors `pendingEarnings` at 0 but still credits the Vault with
the payout: the total supply jumps from 1000 to 1005 with no `addToVault`
involved. -/
theorem conservation_counterexample :
    moneySupply (initialState 10) = 1000 ∧
    moneySupply forfeitTrace7 = 1000 ∧
    moneySupply (undoTaskCompletion 2 forfeitTrace7).1 = 1005 ∧
    moneySupply (undoTaskCompletion 2 forfeitTrace7).1 ≠
      moneySupply forfeitTrace7 := by
  refine ⟨by decide, by decide, by decide, by decide⟩

/-- C1 (amended): with distinct child ids, `completeTask` and `denyRequest`
always preserve `vault.balance + Σ(balance + savings + pendingEarnings)`;
`addStrike` preserves it provided the forfeiture's Vault credit does not
clamp at `maxBalance`; `undoTaskCompletion` preserves it provided the
child's `pendingEarnings` is at least the task's payout and the Vault
credit does not clamp; `approveRequest` preserves it provided the Vault
credit does not clamp.  (The counterexample shows the clamping/flooring
cases genuinely create or destroy currency.) -/
theorem moneySupply_preservation (now : Nat) (s : DadaState)
    (hnd : (s.children.map ChildProfile.id).Nodup) :
    (∀ tid, moneySupply (completeTask tid now s).1 = moneySupply s) ∧
    (∀ reason c, actingChild s = some c →
      s.vault.balance + c.pendingEarnings ≤ VAULT_MAX →
      moneySupply (addStrike reason now s).1 = moneySupply s) ∧
    (∀ tid t c, findTask s tid = some t → actingChild s = some c →
      t.payout ≤ c.pendingEarnings →
      s.vault.balance + t.payout ≤ VAULT_MAX →
      moneySupply (undoTaskCompletion tid s).1 = moneySupply s) ∧
    (∀ rid, moneySupply (denyRequest rid now s) = moneySupply s) ∧
    (∀ rid r, s.pendingRequests.find? (fun x => x.id == rid) = some r →
      s.vault.balance + r.totalCost ≤ VAULT_MAX →
      moneySupply (approveRequest rid now s).1 = moneySupply s) := by
  refine ⟨?_, ?_, ?_, fun rid => denyRequest_moneySupply rid now s, ?_⟩
  · intro tid
    cases hft : findTask s tid with
    | none => simp [completeTask, hft]
    | some t =>
      by_cases hia : t.isActive = false
      · simp [completeTask, hft, hia]
      · cases hact : actingChild s with
        | none => simp [completeTask, hft, hia, hact]
        | some c =>
          by_cases h1 : MAX_STRIKES ≤ todayStrikeCount s c.id (getTodayDate now)
          · simp [completeTask, hft, hia, hact, h1]
          · by_cases h2 : t.dailyMax ≤ t.completions
            · simp [completeTask, hft, hia, hact, h1, h2]
            · by_cases h3 : s.vault.balance < t.payout
              · simp [completeTask, hft, hia, hact, h1, h2, h3]
              · have hct := childrenTotal_updateChildren s.children c.id
                  (fun u =>
                    { u with pendingEarnings := u.pendingEarnings + t.payout })
                  c hnd (actingChild_find? s c hact)
                have hred : completeTask tid now s =
                    ({ s with
                        tasks := updateTasks s.tasks tid (fun u =>
                          { u with completions := u.completions + 1 }),
                        children := updateChildren s.children c.id (fun u =>
                          { u with
                              pendingEarnings := u.pendingEarnings + t.payout }),
                        vault := { s.vault with
                          balance := s.vault.balance - t.payout } },
                     .completed t.payout) := by
                  unfold completeTask
                  rw [hft, hact]
                  simp [hia, h1, h2, h3]
                rw [hred]
                unfold moneySupply
                dsimp
                rw [hct]
                unfold childHolding
                dsimp
                ring
  · intro reason c hact hcap
    have hM : MAX_STRIKES = 3 := rfl
    by_cases h1 : MAX_STRIKES ≤ todayStrikeCount s c.id (getTodayDate now)
    · have hred : addStrike reason now s = (s, .capReached) := by
        unfold addStrike
        rw [hact]
        simp [h1]
      rw [hred]
    · by_cases h2 : MAX_STRIKES ≤ todayStrikeCount s c.id (getTodayDate now) + 1
      · have hc2 : todayStrikeCount s c.id (getTodayDate now) = 2 := by omega
        have f := addStrike_third now s c reason hact hc2
        have hct := childrenTotal_updateChildren s.children c.id
          (fun u => { u with pendingEarnings := 0 })
          c hnd (actingChild_find? s c hact)
        unfold moneySupply
        rw [f.2.1, f.2.2.1, hct, min_eq_right hcap]
        unfold childHolding
        dsimp
        ring
      · have f := addStrike_nonthird now s c reason hact
          (todayStrikeCount s c.id (getTodayDate now)) rfl (by omega)
        unfold moneySupply
        rw [f.2.1, f.2.2.2.2.1]
  · intro tid t c hft hact hple hvle
    by_cases hc0 : t.completions ≤ 0
    · have hred : undoTaskCompletion tid s = (s, false) := by
        unfold undoTaskCompletion
        rw [hft]
        simp [hc0]
      rw [hred]
    · have hred : undoTaskCompletion tid s =
          ({ s with
              tasks := updateTasks s.tasks tid (fun u =>
                { u with completions := u.completions - 1 }),
              children := updateChildren s.children c.id (fun u =>
                { u with
                    pendingEarnings := max 0 (u.pendingEarnings - t.payout) }),
              vault := { s.vault with
                balance := min VAULT_MAX (s.vault.balance + t.payout) } },
           true) := by
        unfold undoTaskCompletion
        rw [hft, hact]
        simp [hc0]
      have hct := childrenTotal_updateChildren s.children c.id
        (fun u => { u with pendingEarnings := max 0 (u.pendingEarnings - t.payout) })
        c hnd (actingChild_find? s c hact)
      rw [hred]
      unfold moneySupply
      dsimp
      rw [hct, min_eq_right hvle]
      unfold childHolding
      dsimp
      rw [max_eq_right (by omega : (0:Int) ≤ c.pendingEarnings - t.payout)]
      ring
  · intro rid r hfr hcap
    cases hfc : s.children.find? (fun x => x.id == r.childId) with
    | none =>
      have hred : approveRequest rid now s = (s, .childNotFound) := by
        simp [approveRequest, hfr, hfc]
      rw [hred]
    | some c =>
      by_cases hlt : c.balance < r.totalCost
      · have hred : approveRequest rid now s =
            (denyRequest rid now s, .insufficientDenied) := by
          simp [approveRequest, hfr, hfc, hlt]
        rw [hred]
        exact denyRequest_moneySupply rid now s
      · have hcid : c.id = r.childId := by simpa using List.find?_some hfc
        have hq : s.children.find? (fun x => x.id == c.id) = some c := by
          rw [hcid]
          exact hfc
        have hct := childrenTotal_updateChildren s.children c.id
          (fun u =>
            { u with balance := u.balance - r.totalCost,
                     totalSpent := u.totalSpent + r.totalCost })
          c hnd hq
        have hred : approveRequest rid now s =
            ({ s with
                pendingRequests :=
                  s.pendingRequests.filter (fun x => x.id != rid),
                requestHistory :=
                  { r with status := RequestStatus.approved, respondedAt := some now } ::
                    s.requestHistory,
                approvedNotifications :=
                  { requestId := r.id, items := r.items, totalCost := r.totalCost,
                    approvedAt := now, shownToChild := false } ::
                    s.approvedNotifications,
                children := updateChildren s.children c.id (fun u =>
                  { u with balance := u.balance - r.totalCost,
                           totalSpent := u.totalSpent + r.totalCost }),
                vault := { s.vault with
                  balance := min VAULT_MAX (s.vault.balance + r.totalCost) },
                transactions :=
                  { id := s.nextId, childId := c.id, type := TransactionType.spend,
                    amount := -r.totalCost, timestamp := now } :: s.transactions,
                nextId := s.nextId + 1 },
             .approved) := by
          simp [approveRequest, hfr, hfc, hlt]
        rw [hred]
        unfold moneySupply
        dsimp
        rw [hct, min_eq_right hcap]
        unfold childHolding
        dsimp
        ring

/-- C1 witness: concrete preservation instances — completing a task on the
initial state, undoing the completion on `forfeitTrace1` (pending 5 ≥
payout 5, Vault 995 + 5 ≤ 1000), and approving the request of the no-top-up
spend trace (Vault 980 + 20 ≤ 1000) all leave the money supply unchanged. -/
theorem moneySupply_preservation_witness :
    moneySupply (completeTask 2 cNow1 (initialState 10)).1 =
      moneySupply (initialState 10) ∧
    moneySupply (undoTaskCompletion 2 forfeitTrace1).1 =
      moneySupply forfeitTrace1 ∧
    moneySupply (approveRequest 2 cNow3 spendTraceNoTopUp).1 =
      moneySupply spendTraceNoTopUp := by
  refine ⟨(moneySupply_preservation cNow1 (initialState 10) (by decide)).1 2,
    ?_, ?_⟩
  · exact (moneySupply_preservation cNow1 forfeitTrace1 (by decide)).2.2.1 2
      { id := 2, payout := 5, dailyMax := 7, completions := 1, isActive := true }
      { id := 0, balance := 0, savings := 0, savingsInterestAccrued := 0,
        totalEarned := 0, totalSpent := 0, pendingEarnings := 5,
        lastInterestDate := 10 }
      (by decide) (by decide) (by decide) (by decide)
  · exact (moneySupply_preservation cNow3 spendTraceNoTopUp (by decide)).2.2.2.2 2
      { id := 2, childId := 0, items := [{ cost := 20, quantity := 1 }],
        totalCost := 20, status := RequestStatus.pending, requestedAt := cNow3,
        respondedAt := none }
      (by decide) (by decide)

end DadaBucks
